import Mathlib

/-!
# Shallow embedding of the technical-analysis core of `stockService.ts`

The indicator library, structure/divergence detectors, signal generator,
backtester and series resampler are embedded over exact rationals (`ℚ`).
The JavaScript `null`-as-absent sentinel is modelled by `Option ℚ`; an
indicator series is a `List (Option ℚ)` aligned index-for-index with its
input, and indexing past the end of a series yields the absent marker.
JavaScript's numeric coercion of `null` to `0` inside relational operators
(used by `detectRSIDivergence` on the raw RSI array) is modelled by
`jsNum`, which reads an entry and coerces the absent marker to `0`.
-/

/-- Read entry `i` of a nullable series, coercing absent (and out-of-range)
to `0`, matching JavaScript's `Number(null) = 0` coercion inside `<`/`>`. -/
def jsNum (l : List (Option ℚ)) (i : ℕ) : ℚ :=
  (l.getD i none).getD 0

/-- The gain list of `calculateRSI`: `gains[i-1] = max(close[i]-close[i-1], 0)`. -/
def gainsOf (closePrices : List ℚ) : List ℚ :=
  (List.range (closePrices.length - 1)).map fun i =>
    let d := closePrices.getD (i + 1) 0 - closePrices.getD i 0
    if 0 < d then d else 0

/-- The loss list of `calculateRSI`: `losses[i-1] = max(close[i-1]-close[i], 0)`. -/
def lossesOf (closePrices : List ℚ) : List ℚ :=
  (List.range (closePrices.length - 1)).map fun i =>
    let d := closePrices.getD (i + 1) 0 - closePrices.getD i 0
    if d < 0 then |d| else 0

/-- One RSI value: `rs = avgGain / (avgLoss == 0 ? 0.001 : avgLoss)`,
`RSI = 100 - 100/(1+rs)`. -/
def rsiVal (avgGain avgLoss : ℚ) : ℚ :=
  let rs := avgGain / (if avgLoss = 0 then 1/1000 else avgLoss)
  100 - 100 / (1 + rs)

/-- The Wilder-smoothing tail loop of `calculateRSI`: consume the remaining
(gain, loss) pairs, updating both averages and emitting one RSI value each. -/
def rsiLoop (period : ℕ) : List (ℚ × ℚ) → ℚ → ℚ → List ℚ
  | [], _, _ => []
  | (g, l) :: rest, avgGain, avgLoss =>
    let avgGain2 := (avgGain * ((period : ℚ) - 1) + g) / period
    let avgLoss2 := (avgLoss * ((period : ℚ) - 1) + l) / period
    rsiVal avgGain2 avgLoss2 :: rsiLoop period rest avgGain2 avgLoss2

/-- `calculateRSI` from `stockService.ts`: needs at least `period + 1` points,
else an all-absent series of the input's length; otherwise `period` absent
entries followed by the seeded value and the Wilder-smoothed tail. -/
def calculateRSI (closePrices : List ℚ) (period : ℕ) : List (Option ℚ) :=
  if closePrices.length < period + 1 then
    List.replicate closePrices.length none
  else
    let gains := gainsOf closePrices
    let losses := lossesOf closePrices
    let avgGain := (gains.take period).sum / period
    let avgLoss := (losses.take period).sum / period
    let first := rsiVal avgGain avgLoss
    let rest := rsiLoop period ((gains.drop period).zip (losses.drop period)) avgGain avgLoss
    List.replicate period none ++ (first :: rest).map some

/-- `calculateMA` (simple moving average): absent before index `period - 1`,
then the unweighted mean of the trailing `period` values. -/
def calculateMA (data : List ℚ) (period : ℕ) : List (Option ℚ) :=
  if data.length < period then
    List.replicate data.length none
  else
    (List.range data.length).map fun i =>
      if i < period - 1 then none
      else some ((((List.range period).map fun j => data.getD (i - j) 0).sum) / period)

/-- The EMA recurrence loop: `ema[i] = (x[i] - ema[i-1]) * k + ema[i-1]`. -/
def emaLoop (k : ℚ) : List ℚ → ℚ → List ℚ
  | [], _ => []
  | x :: rest, e =>
    let e2 := (x - e) * k + e
    e2 :: emaLoop k rest e2

/-- `calculateEMA`: seeded with the SMA of the first `period` points, then the
exponential recurrence with multiplier `2 / (period + 1)`. -/
def calculateEMA (data : List ℚ) (period : ℕ) : List (Option ℚ) :=
  if data.length < period then
    List.replicate data.length none
  else
    let k := 2 / ((period : ℚ) + 1)
    let ema0 := (data.take period).sum / period
    List.replicate (period - 1) none ++ (ema0 :: emaLoop k (data.drop period) ema0).map some

/-- `calculateMACD`: MACD line (fast EMA − slow EMA, absent before index
`slowPeriod - 1`, with an absent EMA entry coerced to `0` as JavaScript's
`null` arithmetic does), signal line (EMA of the non-absent MACD portion,
left-padded back to the input length) and histogram (entrywise difference
where both are present). -/
def calculateMACD (closePrices : List ℚ) (fastPeriod slowPeriod signalPeriod : ℕ) :
    List (Option ℚ) × List (Option ℚ) × List (Option ℚ) :=
  let n := closePrices.length
  if n < max fastPeriod slowPeriod + signalPeriod then
    (List.replicate n none, List.replicate n none, List.replicate n none)
  else
    let fastEMA := calculateEMA closePrices fastPeriod
    let slowEMA := calculateEMA closePrices slowPeriod
    let macdLine := (List.range n).map fun i =>
      if i < slowPeriod - 1 then none
      else some ((fastEMA.getD i none).getD 0 - (slowEMA.getD i none).getD 0)
    let validMacd := macdLine.filterMap id
    let signalLine := calculateEMA validMacd signalPeriod
    let fullSignalLine := List.replicate (n - signalLine.length) none ++ signalLine
    let histogram := (List.range n).map fun i =>
      match macdLine.getD i none, fullSignalLine.getD i none with
      | some a, some b => some (a - b)
      | _, _ => none
    (macdLine, fullSignalLine, histogram)

/-- `calculateVWAP`: rolling `period`-window volume-weighted mean of the
typical price `(H+L+C)/3`; absent before index `period - 1` and wherever the
rolling volume sum is not positive. -/
def calculateVWAP (highPrices lowPrices closePrices volumes : List ℚ) (period : ℕ) :
    List (Option ℚ) :=
  if highPrices.length < period ∨ lowPrices.length < period ∨
      closePrices.length < period ∨ volumes.length < period then
    List.replicate
      (max (max highPrices.length lowPrices.length) (max closePrices.length volumes.length)) none
  else
    let typicalPrices := (List.range highPrices.length).map fun i =>
      (highPrices.getD i 0 + lowPrices.getD i 0 + closePrices.getD i 0) / 3
    (List.range typicalPrices.length).map fun i =>
      if i < period - 1 then none
      else
        let sumTPV :=
          (((List.range period).map fun j =>
            typicalPrices.getD (i - j) 0 * volumes.getD (i - j) 0)).sum
        let sumVolume := (((List.range period).map fun j => volumes.getD (i - j) 0)).sum
        if 0 < sumVolume then some (sumTPV / sumVolume) else none

/-- Result type of `identifyMarketStructure`: sparse swing-high and swing-low
series. -/
structure MarketStructure where
  highs : List (Option ℚ)
  lows : List (Option ℚ)
deriving DecidableEq

/-- `identifyMarketStructure`: bar `i` is a swing high iff its high strictly
exceeds the highs of the `period` bars on each side (symmetrically for swing
lows); the first and last `period` bars are never marked; needs at least
`2 * period + 1` points else both outputs are all-absent. -/
def identifyMarketStructure (highPrices lowPrices : List ℚ) (period : ℕ) : MarketStructure :=
  if highPrices.length < period * 2 + 1 ∨ lowPrices.length < period * 2 + 1 then
    { highs := List.replicate (max highPrices.length lowPrices.length) none,
      lows := List.replicate (max highPrices.length lowPrices.length) none }
  else
    { highs := (List.range highPrices.length).map fun i =>
        if period ≤ i ∧ i < highPrices.length - period ∧
            ∀ j ∈ List.range' 1 period,
              highPrices.getD (i - j) 0 < highPrices.getD i 0 ∧
              highPrices.getD (i + j) 0 < highPrices.getD i 0 then
          some (highPrices.getD i 0)
        else none,
      lows := (List.range lowPrices.length).map fun i =>
        if period ≤ i ∧ i < lowPrices.length - period ∧
            ∀ j ∈ List.range' 1 period,
              lowPrices.getD i 0 < lowPrices.getD (i - j) 0 ∧
              lowPrices.getD i 0 < lowPrices.getD (i + j) 0 then
          some (lowPrices.getD i 0)
        else none }

/-- Result type of `detectRSIDivergence`. -/
structure RSIDivergence where
  bullishDivergence : List Bool
  bearishDivergence : List Bool
deriving DecidableEq

/-- `detectRSIDivergence`: from bar `2 * period` on, bearish when price is up
over `period` bars while RSI is down and above 70; bullish when price is down
while RSI is up and below 30 (RSI entries compared after JavaScript's
null-to-0 coercion); needs at least `2 * period` points else all-false. -/
def detectRSIDivergence (closePrices : List ℚ) (rsiValues : List (Option ℚ)) (period : ℕ) :
    RSIDivergence :=
  if closePrices.length < period * 2 ∨ rsiValues.length < period * 2 then
    { bullishDivergence := List.replicate (max closePrices.length rsiValues.length) false,
      bearishDivergence := List.replicate (max closePrices.length rsiValues.length) false }
  else
    { bullishDivergence := (List.range closePrices.length).map fun i =>
        decide (period * 2 ≤ i ∧
          closePrices.getD i 0 < closePrices.getD (i - period) 0 ∧
          jsNum rsiValues (i - period) < jsNum rsiValues i ∧
          jsNum rsiValues i < 30),
      bearishDivergence := (List.range closePrices.length).map fun i =>
        decide (period * 2 ≤ i ∧
          closePrices.getD (i - period) 0 < closePrices.getD i 0 ∧
          jsNum rsiValues i < jsNum rsiValues (i - period) ∧
          70 < jsNum rsiValues i) }

/-- Result type of `generateTradingSignals`. -/
structure TradingSignals where
  buySignals : List Bool
  sellSignals : List Bool
deriving DecidableEq

/-- The number of `true` entries in a boolean list (`filter(Boolean).length`). -/
def countTrue (l : List Bool) : ℕ := (l.filter id).length

/-- The JavaScript guard `x !== null && x < q` on a nullable number. -/
def presentLt (o : Option ℚ) (q : ℚ) : Bool :=
  o.isSome && decide (o.getD 0 < q)

/-- The JavaScript guard `x !== null && x > q` on a nullable number. -/
def presentGt (o : Option ℚ) (q : ℚ) : Bool :=
  o.isSome && decide (q < o.getD 0)

/-- The four buy-conditions of `generateTradingSignals` at bar `i`:
RSI oversold, bullish RSI divergence, structural swing low, close above
VWAP. -/
def buyConditions (closePrices : List ℚ) (rsiValues vwapValues : List (Option ℚ))
    (marketStructure : MarketStructure) (rsiDivergence : RSIDivergence) (i : ℕ) : List Bool :=
  [ presentLt (rsiValues.getD i none) 30,
    rsiDivergence.bullishDivergence.getD i false,
    (marketStructure.lows.getD i none).isSome,
    presentLt (vwapValues.getD i none) (closePrices.getD i 0) ]

/-- The four sell-conditions of `generateTradingSignals` at bar `i`:
RSI overbought, bearish RSI divergence, structural swing high, close below
VWAP. -/
def sellConditions (closePrices : List ℚ) (rsiValues vwapValues : List (Option ℚ))
    (marketStructure : MarketStructure) (rsiDivergence : RSIDivergence) (i : ℕ) : List Bool :=
  [ presentGt (rsiValues.getD i none) 70,
    rsiDivergence.bearishDivergence.getD i false,
    (marketStructure.highs.getD i none).isSome,
    presentGt (vwapValues.getD i none) (closePrices.getD i 0) ]

/-- `generateTradingSignals`: from bar 30 on, a buy (resp. sell) signal fires
iff at least 2 of the 4 buy- (resp. sell-) conditions hold; bars before 30
are false; empty price input yields empty outputs.  The `atrValues` argument
is accepted but, as in the source, never read. -/
def generateTradingSignals (closePrices : List ℚ)
    (rsiValues vwapValues atrValues : List (Option ℚ))
    (marketStructure : MarketStructure) (rsiDivergence : RSIDivergence) : TradingSignals :=
  if closePrices.length = 0 then
    { buySignals := [], sellSignals := [] }
  else
    { buySignals := (List.range closePrices.length).map fun i =>
        decide (30 ≤ i) &&
          decide (2 ≤ countTrue (buyConditions closePrices rsiValues vwapValues
            marketStructure rsiDivergence i)),
      sellSignals := (List.range closePrices.length).map fun i =>
        decide (30 ≤ i) &&
          decide (2 ≤ countTrue (sellConditions closePrices rsiValues vwapValues
            marketStructure rsiDivergence i)) }

/-- A completed `backtest` trade: entry price, exit price and profit in
percent. -/
structure Trade where
  entry : ℚ
  exit_ : ℚ
  profit : ℚ
deriving DecidableEq

/-- The mutable state of the `backtest` loop: the equity curve built so far
(whose last entry is the running equity), the position flag and the entry
price of the open position, and the trade log. -/
structure BTState where
  equity : List ℚ
  cur : ℚ
  inPosition : Bool
  entryPrice : ℚ
  trades : List Trade
deriving DecidableEq

/-- One iteration of the `backtest` loop at bar `i`: push a copy of the
running equity, then either enter on a buy signal while flat, or exit on a
sell signal (or on the final bar) while long — recording the trade and
scaling the just-pushed equity entry by `1 + profitPercent`. -/
def backtestStep (lastIdx : ℕ) (closePrices : List ℚ) (buySignals sellSignals : List Bool)
    (s : BTState) (i : ℕ) : BTState :=
  if buySignals.getD i false && !s.inPosition then
    { s with
      equity := s.equity ++ [s.cur],
      inPosition := true,
      entryPrice := closePrices.getD i 0 }
  else if (sellSignals.getD i false || decide (i = lastIdx)) && s.inPosition then
    let exitPrice := closePrices.getD i 0
    let profitPercent := (exitPrice - s.entryPrice) / s.entryPrice
    let newCur := s.cur * (1 + profitPercent)
    { equity := s.equity ++ [newCur],
      cur := newCur,
      inPosition := false,
      entryPrice := s.entryPrice,
      trades := s.trades ++ [{ entry := s.entryPrice, exit_ := exitPrice,
                               profit := profitPercent * 100 }] }
  else
    { s with equity := s.equity ++ [s.cur] }

/-- `backtest` from `stockService.ts`, returning the equity curve and the
trade log.  (The summary statistics of the source — win rate, profit factor,
maximum drawdown, annualised return — involve IEEE infinities and fractional
real powers and are not referenced by the verified properties, so they are
not part of the embedding.)  Empty input yields the degenerate
`([initialCapital], [])`. -/
def backtest (closePrices : List ℚ) (buySignals sellSignals : List Bool)
    (initialCapital : ℚ) : List ℚ × List Trade :=
  if closePrices.length = 0 ∨ buySignals.length = 0 ∨ sellSignals.length = 0 then
    ([initialCapital], [])
  else
    let final := (List.range closePrices.length).foldl
      (backtestStep (closePrices.length - 1) closePrices buySignals sellSignals)
      { equity := [initialCapital], cur := initialCapital, inPosition := false,
        entryPrice := 0, trades := [] }
    (final.equity, final.trades)

/-- An OHLCV series, structure-of-arrays as in the source (`open` is a Lean
keyword, hence the field name `open_`). -/
structure StockData where
  timestamp : List ℤ
  open_ : List ℚ
  high : List ℚ
  low : List ℚ
  close : List ℚ
  volume : List ℚ
deriving DecidableEq

/-- First-occurrence deduplication, as JavaScript's `[...new Set(xs)]`. -/
def jsUnique {K : Type} [DecidableEq K] (l : List K) : List K :=
  l.foldl (fun acc k => if k ∈ acc then acc else acc ++ [k]) []

/-- The indices of the bars whose bucket key equals `k`
(`keys.map((d, i) => d === k ? i : -1).filter(i => i !== -1)`). -/
def bucketIndices {K : Type} [DecidableEq K] (keys : List K) (k : K) : List ℕ :=
  (List.range keys.length).filter fun i => decide (keys.get? i = some k)

/-- `Math.max(...xs)` over a nonempty list (`0` for the empty list, which the
source never reaches since empty buckets are skipped). -/
def maxD : List ℚ → ℚ
  | [] => 0
  | x :: xs => xs.foldl max x

/-- `Math.min(...xs)` over a nonempty list (`0` for the empty list). -/
def minD : List ℚ → ℚ
  | [] => 0
  | x :: xs => xs.foldl min x

/-- The bucket-aggregation body shared by `aggregateToDaily`,
`aggregateToWeekly` and `aggregateToMonthly`: given the per-bar bucket keys,
aggregate each first-occurrence-ordered nonempty bucket into one bar
(open of the first bar, max high, min low, close of the last bar, summed
volume, timestamp of the first bar). -/
def aggregateByKeys {K : Type} [DecidableEq K] (data : StockData) (keys : List K) : StockData :=
  let buckets := ((jsUnique keys).map fun k => bucketIndices keys k).filter fun idx => idx ≠ []
  { timestamp := buckets.map fun idx => data.timestamp.getD (idx.headD 0) 0,
    open_ := buckets.map fun idx => data.open_.getD (idx.headD 0) 0,
    high := buckets.map fun idx => maxD (idx.map fun i => data.high.getD i 0),
    low := buckets.map fun idx => minD (idx.map fun i => data.low.getD i 0),
    close := buckets.map fun idx => data.close.getD (idx.getLastD 0) 0,
    volume := buckets.map fun idx => (idx.map fun i => data.volume.getD i 0).sum }

/-- The common shape of `aggregateToDaily` / `aggregateToWeekly` /
`aggregateToMonthly`, parameterised by the calendar bucketing key (the
source derives it from the bar timestamp via JavaScript `Date` calendar
arithmetic, which is external library behaviour): empty input is returned
as is; otherwise aggregate by key, and if the aggregate has fewer than 2
bars fall back to returning the original input. -/
def aggregateToBuckets {K : Type} [DecidableEq K] (key : ℤ → K) (data : StockData) : StockData :=
  if data.timestamp = [] then data
  else
    let agg := aggregateByKeys data (data.timestamp.map key)
    if agg.timestamp.length < 2 then data else agg

/-- The aggregation body of `aggregateToHourly`: fixed-width time slots of
`hours * 3600000` ms starting at the first timestamp and extending while the
slot start does not exceed the last timestamp; each nonempty slot becomes one
bar stamped with the slot start.  (For `hours = 0` the source's slot loop
would not terminate; the model produces no slots there.) -/
def hourlyAggregate (data : StockData) (hours : ℕ) : StockData :=
  let interval : ℤ := (hours : ℤ) * 3600000
  let first := data.timestamp.headD 0
  let lastTs := data.timestamp.getLastD 0
  let numSlots : ℕ :=
    if interval ≤ 0 ∨ lastTs < first then 0
    else (lastTs - first).toNat / interval.toNat + 1
  let slots := (List.range numSlots).map fun k => first + (k : ℤ) * interval
  let buckets := (slots.map fun s =>
      (s, (List.range data.timestamp.length).filter fun i =>
            decide (s ≤ data.timestamp.getD i 0) ∧
            decide (data.timestamp.getD i 0 < s + interval))).filter fun p => p.2 ≠ []
  { timestamp := buckets.map fun p => p.1,
    open_ := buckets.map fun p => data.open_.getD (p.2.headD 0) 0,
    high := buckets.map fun p => maxD (p.2.map fun i => data.high.getD i 0),
    low := buckets.map fun p => minD (p.2.map fun i => data.low.getD i 0),
    close := buckets.map fun p => data.close.getD (p.2.getLastD 0) 0,
    volume := buckets.map fun p => (p.2.map fun i => data.volume.getD i 0).sum }

/-- `aggregateToHourly`: empty input is returned as is; otherwise aggregate
into fixed-width hour slots, and if the aggregate has fewer than 2 bars fall
back to returning the original input. -/
def aggregateToHourly (data : StockData) (hours : ℕ) : StockData :=
  if data.timestamp = [] then data
  else
    if (hourlyAggregate data hours).timestamp.length < 2 then data
    else hourlyAggregate data hours

/-! ## Generic access lemmas

Batteries seals the rational-number operations behind `@[irreducible]`;
evaluation by `decide` on concrete inputs needs them reducible again within
this development. -/

section RatEval

attribute [local semireducible] Rat.add Rat.mul Rat.inv Rat.sub Rat.ofScientific

theorem getD_map_range {α : Type} (f : ℕ → α) (d : α) {n i : ℕ} (h : i < n) :
    ((List.range n).map f).getD i d = f i := by
  rw [List.getD_eq_getElem _ _ (by simpa using h)]
  simp

theorem getD_map_range_ge {α : Type} (f : ℕ → α) (d : α) {n i : ℕ} (h : n ≤ i) :
    ((List.range n).map f).getD i d = d :=
  List.getD_eq_default _ _ (by simpa using h)

theorem getD_replicate_ite {α : Type} (a d : α) (n i : ℕ) :
    (List.replicate n a).getD i d = if i < n then a else d := by
  split
  · rw [List.getD_eq_getElem _ _ (by simpa)]
    simp
  · exact List.getD_eq_default _ _ (by simp; omega)

theorem length_emaLoop (k : ℚ) : ∀ (l : List ℚ) (e : ℚ), (emaLoop k l e).length = l.length := by
  intro l
  induction l with
  | nil => intro e; rfl
  | cons x rest ih => intro e; simp [emaLoop, ih]

/-- C6 counterexample input check: `calculateEMA` on the empty series with
period 0 passes the length guard and emits the seed value, so its output has
length 1 while the input has length 0. -/
theorem C6_counterexample : (calculateEMA ([] : List ℚ) 0).length ≠ ([] : List ℚ).length := by
  decide

/-- C6 (amended): for every period `P ≥ 1` and every series `x`,
`calculateMA x P` and `calculateEMA x P` have the input's length, with every
index in `[0, P-2]` absent; and on `closes = [1..15]` with `P = 5` the SMA at
index 4 is `mean(1..5) = 3` while indices 0–3 are absent. -/
theorem C6_sma_ema_prefix_law :
    (∀ (P : ℕ) (x : List ℚ), 1 ≤ P →
      (calculateMA x P).length = x.length ∧ (calculateEMA x P).length = x.length ∧
      ∀ i, i + 1 < P →
        (calculateMA x P).getD i none = none ∧ (calculateEMA x P).getD i none = none) ∧
    (calculateMA [1, 2, 3, 4, 5, 6, 7, 8, 9, 10, 11, 12, 13, 14, 15] 5).getD 4 none = some 3 ∧
    ∀ i, i < 4 →
      (calculateMA [1, 2, 3, 4, 5, 6, 7, 8, 9, 10, 11, 12, 13, 14, 15] 5).getD i none = none := by
  refine ⟨fun P x hP => ?_, by decide, by decide⟩
  refine ⟨?_, ?_, fun i hi => ⟨?_, ?_⟩⟩
  · unfold calculateMA
    split
    · simp
    · simp
  · unfold calculateEMA
    split
    · simp
    · rename_i hlen
      push_neg at hlen
      simp [length_emaLoop]
      omega
  · unfold calculateMA
    split
    · rw [getD_replicate_ite]
      split <;> rfl
    · rename_i hlen
      push_neg at hlen
      have hix : i < x.length := by omega
      rw [getD_map_range _ _ hix]
      simp only [if_pos (by omega : i < P - 1)]
  · unfold calculateEMA
    split
    · rw [getD_replicate_ite]
      split <;> rfl
    · rw [List.getD_append _ _ _ _ (by simp; omega)]
      rw [getD_replicate_ite]
      split <;> rfl

/-! ## C3: RSI of a constant series -/

theorem gainsOf_replicate (n : ℕ) (c : ℚ) :
    gainsOf (List.replicate n c) = List.replicate (n - 1) 0 := by
  unfold gainsOf
  rw [List.eq_replicate_iff]
  refine ⟨by simp, fun b hb => ?_⟩
  obtain ⟨i, hi, rfl⟩ := List.mem_map.1 hb
  have hilt := List.mem_range.1 hi
  simp only [List.length_replicate] at hilt
  have h1 : i + 1 < n := by omega
  have h2 : i < n := by omega
  rw [getD_replicate_ite, getD_replicate_ite]
  simp [h1, h2]

theorem lossesOf_replicate (n : ℕ) (c : ℚ) :
    lossesOf (List.replicate n c) = List.replicate (n - 1) 0 := by
  unfold lossesOf
  rw [List.eq_replicate_iff]
  refine ⟨by simp, fun b hb => ?_⟩
  obtain ⟨i, hi, rfl⟩ := List.mem_map.1 hb
  have hilt := List.mem_range.1 hi
  simp only [List.length_replicate] at hilt
  have h1 : i + 1 < n := by omega
  have h2 : i < n := by omega
  rw [getD_replicate_ite, getD_replicate_ite]
  simp [h1, h2]

theorem rsiVal_zero_zero : rsiVal 0 0 = 0 := by
  unfold rsiVal
  norm_num

theorem zip_replicate_self {α β : Type} (a : α) (b : β) (m : ℕ) :
    (List.replicate m a).zip (List.replicate m b) = List.replicate m (a, b) := by
  induction m with
  | zero => rfl
  | succ k ih => simp [List.replicate_succ, ih]

theorem rsiLoop_replicate_zero (period : ℕ) :
    ∀ m, rsiLoop period (List.replicate m ((0 : ℚ), (0 : ℚ))) 0 0 = List.replicate m 0 := by
  intro m
  induction m with
  | zero => rfl
  | succ k ih =>
    rw [List.replicate_succ]
    unfold rsiLoop
    simp only [zero_mul, zero_add, zero_div, List.replicate_succ]
    rw [ih, rsiVal_zero_zero]

theorem getD_map_some_eq {l : List ℚ} {j : ℕ} {r : ℚ}
    (h : (l.map some).getD j none = some r) : j < l.length ∧ l.getD j 0 = r := by
  rcases Nat.lt_or_ge j l.length with hj | hj
  · refine ⟨hj, ?_⟩
    rw [List.getD_eq_getElem _ _ (by simpa using hj), List.getElem_map] at h
    rw [List.getD_eq_getElem _ _ hj]
    exact Option.some_injective _ h
  · rw [List.getD_eq_default _ _ (by simpa using hj)] at h
    exact absurd h (by simp)

theorem getD_cons_replicate_zero (m j : ℕ) :
    ((0 : ℚ) :: List.replicate m (0 : ℚ)).getD j 0 = 0 := by
  cases j with
  | zero => rfl
  | succ k =>
    rw [List.getD_cons_succ, getD_replicate_ite]
    split <;> rfl

/-- C3: on a constant close series every non-absent RSI value is exactly 0
under the source's epsilon-substitution rule (`avgGain = avgLoss = 0`, the
zero `avgLoss` replaced by `0.001`, so `rs = 0/0.001 = 0` and
`RSI = 100 - 100/1 = 0`); in particular the warmed-up RSI is not 50. -/
theorem C3_rsi_constant_is_zero :
    ∀ (c : ℚ) (n period : ℕ) (i : ℕ) (r : ℚ),
      (calculateRSI (List.replicate n c) period).getD i none = some r →
      r = 0 ∧ r ≠ 50 := by
  intro c n period i r h
  suffices hr : r = 0 by exact ⟨hr, by rw [hr]; norm_num⟩
  unfold calculateRSI at h
  split at h
  · rw [getD_replicate_ite] at h
    split at h <;> exact absurd h (by simp)
  · dsimp only at h
    rw [gainsOf_replicate, lossesOf_replicate, List.take_replicate, List.sum_replicate,
      List.drop_replicate, zip_replicate_self] at h
    simp only [smul_zero, zero_div] at h
    rw [rsiLoop_replicate_zero, rsiVal_zero_zero] at h
    rcases Nat.lt_or_ge i period with hip | hip
    · rw [List.getD_append _ _ _ _ (by simpa using hip), getD_replicate_ite] at h
      split at h <;> exact absurd h (by simp)
    · rw [List.getD_append_right _ _ _ _ (by simpa using hip)] at h
      obtain ⟨-, h2⟩ := getD_map_some_eq h
      rw [← h2]
      exact getD_cons_replicate_zero _ _

/-- C3 witness: concrete instantiation on 16 constant bars with period 14;
the RSI at index 14 is present and the theorem forces it to be 0 (not 50). -/
theorem C3_witness :
    (calculateRSI (List.replicate 16 (100 : ℚ)) 14).getD 14 none = some 0 ∧
    (0 : ℚ) = 0 ∧ (0 : ℚ) ≠ 50 := by
  have h : (calculateRSI (List.replicate 16 (100 : ℚ)) 14).getD 14 none = some 0 := by decide
  exact ⟨h, C3_rsi_constant_is_zero 100 16 14 14 0 h⟩


/-! ## C7: RSI boundedness -/

theorem rsiVal_bounds {g l : ℚ} (hg : 0 ≤ g) (hl : 0 ≤ l) :
    0 ≤ rsiVal g l ∧ rsiVal g l ≤ 100 := by
  unfold rsiVal
  have hden : 0 < (if l = 0 then (1/1000 : ℚ) else l) := by
    split
    · norm_num
    · rename_i hne
      exact lt_of_le_of_ne hl (Ne.symm hne)
  have hrs : 0 ≤ g / (if l = 0 then (1/1000 : ℚ) else l) := div_nonneg hg hden.le
  have h1 : (1 : ℚ) ≤ 1 + g / (if l = 0 then (1/1000 : ℚ) else l) := by linarith
  have hle : (100 : ℚ) / (1 + g / (if l = 0 then (1/1000 : ℚ) else l)) ≤ 100 :=
    div_le_self (by norm_num) h1
  have hpos : (0 : ℚ) < 100 / (1 + g / (if l = 0 then (1/1000 : ℚ) else l)) :=
    div_pos (by norm_num) (by linarith)
  constructor <;> linarith

theorem gainsOf_nonneg (c : List ℚ) : ∀ x ∈ gainsOf c, 0 ≤ x := by
  intro x hx
  obtain ⟨i, -, rfl⟩ := List.mem_map.1 hx
  dsimp only
  split
  · linarith [‹0 < c.getD (i + 1) 0 - c.getD i 0›]
  · exact le_refl 0

theorem lossesOf_nonneg (c : List ℚ) : ∀ x ∈ lossesOf c, 0 ≤ x := by
  intro x hx
  obtain ⟨i, -, rfl⟩ := List.mem_map.1 hx
  dsimp only
  split
  · exact abs_nonneg _
  · exact le_refl 0

theorem rsiLoop_mem {period : ℕ} (hp : 1 ≤ period) :
    ∀ (pairs : List (ℚ × ℚ)) (g l : ℚ), 0 ≤ g → 0 ≤ l →
      (∀ p ∈ pairs, 0 ≤ p.1 ∧ 0 ≤ p.2) →
      ∀ x ∈ rsiLoop period pairs g l, ∃ g2 l2, 0 ≤ g2 ∧ 0 ≤ l2 ∧ x = rsiVal g2 l2 := by
  intro pairs
  induction pairs with
  | nil => intro g l _ _ _ x hx; exact absurd hx (by simp [rsiLoop])
  | cons p rest ih =>
    intro g l hg hl hmem x hx
    obtain ⟨p1, p2⟩ := p
    have hper : (0 : ℚ) ≤ (period : ℚ) - 1 := by
      have : (1 : ℚ) ≤ (period : ℚ) := by exact_mod_cast hp
      linarith
    have hg2 : 0 ≤ (g * ((period : ℚ) - 1) + p1) / period :=
      div_nonneg (by nlinarith [(hmem (p1, p2) (by simp)).1]) (by positivity)
    have hl2 : 0 ≤ (l * ((period : ℚ) - 1) + p2) / period :=
      div_nonneg (by nlinarith [(hmem (p1, p2) (by simp)).2]) (by positivity)
    rw [rsiLoop] at hx
    rcases List.mem_cons.1 hx with hx1 | hx2
    · exact ⟨_, _, hg2, hl2, hx1⟩
    · exact ih _ _ hg2 hl2 (fun q hq => hmem q (List.mem_cons_of_mem _ hq)) x hx2

/-- C7: every non-absent value produced by `calculateRSI` lies in `[0, 100]`
(for any positive period; the substituted denominator is positive and both
running averages stay non-negative, so `rs ≥ 0` and `100/(1+rs) ∈ (0, 100]`). -/
theorem C7_rsi_bounded :
    ∀ (closes : List ℚ) (period : ℕ), 1 ≤ period →
      ∀ (i : ℕ) (r : ℚ), (calculateRSI closes period).getD i none = some r →
        0 ≤ r ∧ r ≤ 100 := by
  intro closes period hp i r h
  unfold calculateRSI at h
  split at h
  · rw [getD_replicate_ite] at h
    split at h <;> exact absurd h (by simp)
  · dsimp only at h
    have havgG : 0 ≤ (List.take period (gainsOf closes)).sum / (period : ℚ) :=
      div_nonneg
        (List.sum_nonneg fun x hx => gainsOf_nonneg closes x (List.take_subset _ _ hx))
        (by positivity)
    have havgL : 0 ≤ (List.take period (lossesOf closes)).sum / (period : ℚ) :=
      div_nonneg
        (List.sum_nonneg fun x hx => lossesOf_nonneg closes x (List.take_subset _ _ hx))
        (by positivity)
    rcases Nat.lt_or_ge i period with hip | hip
    · rw [List.getD_append _ _ _ _ (by simpa using hip), getD_replicate_ite] at h
      split at h <;> exact absurd h (by simp)
    · rw [List.getD_append_right _ _ _ _ (by simpa using hip)] at h
      obtain ⟨hlt, h2⟩ := getD_map_some_eq h
      rw [List.getD_eq_getElem _ _ hlt] at h2
      have hmem := List.getElem_mem hlt
      rw [h2] at hmem
      rcases List.mem_cons.1 hmem with h3 | h3
      · rw [h3]
        exact rsiVal_bounds havgG havgL
      · obtain ⟨g2, l2, hg2, hl2, rfl⟩ :=
          rsiLoop_mem hp _ _ _ havgG havgL
            (fun q hq => ⟨gainsOf_nonneg closes q.1 (List.drop_subset _ _ (List.of_mem_zip hq).1),
                          lossesOf_nonneg closes q.2 (List.drop_subset _ _ (List.of_mem_zip hq).2)⟩)
            r h3
        exact rsiVal_bounds hg2 hl2

/-- C7 witness: the RSI of 16 constant bars with period 14 at index 14 is
present (it is 0) and therefore within `[0, 100]`. -/
theorem C7_witness :
    (calculateRSI (List.replicate 16 (100 : ℚ)) 14).getD 14 none = some 0 ∧
    ((0 : ℚ) ≤ 0 ∧ (0 : ℚ) ≤ 100) := by
  have h : (calculateRSI (List.replicate 16 (100 : ℚ)) 14).getD 14 none = some 0 := by decide
  exact ⟨h, C7_rsi_bounded (List.replicate 16 100) 14 (by norm_num) 14 0 h⟩


/-! ## C8: MACD histogram consistency and short-input policy -/

/-- C8: wherever the MACD line, signal line and histogram are all present,
the histogram equals MACD minus signal (exactly, over `ℚ`); and an input
shorter than `max(fast, slow) + signal` yields three all-absent outputs of
the input's length. -/
theorem C8_macd_consistency :
    ∀ (closes : List ℚ) (fastPeriod slowPeriod signalPeriod : ℕ),
      (∀ (i : ℕ) (a b c : ℚ),
        (calculateMACD closes fastPeriod slowPeriod signalPeriod).1.getD i none = some a →
        (calculateMACD closes fastPeriod slowPeriod signalPeriod).2.1.getD i none = some b →
        (calculateMACD closes fastPeriod slowPeriod signalPeriod).2.2.getD i none = some c →
        c = a - b) ∧
      (closes.length < max fastPeriod slowPeriod + signalPeriod →
        calculateMACD closes fastPeriod slowPeriod signalPeriod =
          (List.replicate closes.length none, List.replicate closes.length none,
           List.replicate closes.length none)) := by
  intro closes fastPeriod slowPeriod signalPeriod
  constructor
  · intro i a b c hma hsb hhc
    by_cases hg : closes.length < max fastPeriod slowPeriod + signalPeriod
    · unfold calculateMACD at hma
      dsimp only at hma
      rw [if_pos hg] at hma
      rw [getD_replicate_ite] at hma
      split at hma <;> exact absurd hma (by simp)
    · unfold calculateMACD at hma hsb hhc
      dsimp only at hma hsb hhc
      rw [if_neg hg] at hma hsb hhc
      dsimp only at hma hsb hhc
      rcases Nat.lt_or_ge i closes.length with hin | hin
      · rw [getD_map_range _ _ hin] at hhc
        rw [hma, hsb] at hhc
        dsimp only at hhc
        exact (Option.some_injective _ hhc).symm
      · rw [getD_map_range_ge _ _ hin] at hhc
        exact absurd hhc (by simp)
  · intro h
    unfold calculateMACD
    dsimp only
    rw [if_pos h]

set_option maxRecDepth 400000 in
/-- C8 witness: on 40 constant bars with the default 12/26/9 periods, all
three outputs are present at index 34 (each 0) and the histogram equals
MACD − signal; the empty input is shorter than `max(12,26)+9` and yields the
three all-absent outputs of length 0. -/
theorem C8_witness :
    ((calculateMACD (List.replicate 40 (100 : ℚ)) 12 26 9).1.getD 34 none = some 0 ∧
     (calculateMACD (List.replicate 40 (100 : ℚ)) 12 26 9).2.1.getD 34 none = some 0 ∧
     (calculateMACD (List.replicate 40 (100 : ℚ)) 12 26 9).2.2.getD 34 none = some 0 ∧
     (0 : ℚ) = 0 - 0) ∧
    (([] : List ℚ).length < max 12 26 + 9 ∧
     calculateMACD ([] : List ℚ) 12 26 9 =
       (List.replicate 0 none, List.replicate 0 none, List.replicate 0 none)) := by
  have h1 : (calculateMACD (List.replicate 40 (100 : ℚ)) 12 26 9).1.getD 34 none = some 0 := by
    decide
  have h2 : (calculateMACD (List.replicate 40 (100 : ℚ)) 12 26 9).2.1.getD 34 none = some 0 := by
    decide
  have h3 : (calculateMACD (List.replicate 40 (100 : ℚ)) 12 26 9).2.2.getD 34 none = some 0 := by
    decide
  exact ⟨⟨h1, h2, h3,
      (C8_macd_consistency (List.replicate 40 100) 12 26 9).1 34 0 0 0 h1 h2 h3⟩,
    by norm_num,
    (C8_macd_consistency [] 12 26 9).2 (by norm_num)⟩


/-! ## C1: the ≥2-of-4 voting rule of the signal generator -/

/-- At least two of four propositions hold. -/
def atLeastTwo (P1 P2 P3 P4 : Prop) : Prop :=
  (P1 ∧ P2) ∨ (P1 ∧ P3) ∨ (P1 ∧ P4) ∨ (P2 ∧ P3) ∨ (P2 ∧ P4) ∨ (P3 ∧ P4)

theorem countTrue_four (a b c d : Bool) :
    2 ≤ countTrue [a, b, c, d] ↔ atLeastTwo (a = true) (b = true) (c = true) (d = true) := by
  cases a <;> cases b <;> cases c <;> cases d <;> simp [countTrue, atLeastTwo, List.filter]

theorem presentLt_eq_true_iff (o : Option ℚ) (q : ℚ) :
    presentLt o q = true ↔ ∃ r, o = some r ∧ r < q := by
  cases o <;> simp [presentLt]

theorem presentGt_eq_true_iff (o : Option ℚ) (q : ℚ) :
    presentGt o q = true ↔ ∃ r, o = some r ∧ q < r := by
  cases o <;> simp [presentGt]

/-- C1: for non-empty closes (and index-aligned auxiliary series, per the
data model), both signal outputs have the input's length, are false at every
bar before 30, and from bar 30 on the buy (resp. sell) signal fires iff at
least 2 of the 4 buy- (resp. sell-) conditions hold. -/
theorem C1_signal_vote_rule :
    ∀ (closes : List ℚ) (rsiValues vwapValues atrValues : List (Option ℚ))
      (ms : MarketStructure) (dv : RSIDivergence),
      closes ≠ [] →
      rsiValues.length = closes.length → vwapValues.length = closes.length →
      ms.highs.length = closes.length → ms.lows.length = closes.length →
      dv.bullishDivergence.length = closes.length →
      dv.bearishDivergence.length = closes.length →
      ((generateTradingSignals closes rsiValues vwapValues atrValues ms dv).buySignals.length
          = closes.length ∧
       (generateTradingSignals closes rsiValues vwapValues atrValues ms dv).sellSignals.length
          = closes.length) ∧
      (∀ i, i < 30 →
        (generateTradingSignals closes rsiValues vwapValues atrValues ms
            dv).buySignals.getD i false = false ∧
        (generateTradingSignals closes rsiValues vwapValues atrValues ms
            dv).sellSignals.getD i false = false) ∧
      (∀ i, 30 ≤ i → i < closes.length →
        ((generateTradingSignals closes rsiValues vwapValues atrValues ms
             dv).buySignals.getD i false = true ↔
          atLeastTwo (∃ r, rsiValues.getD i none = some r ∧ r < 30)
            (dv.bullishDivergence.getD i false = true)
            ((ms.lows.getD i none).isSome = true)
            (∃ v, vwapValues.getD i none = some v ∧ v < closes.getD i 0)) ∧
        ((generateTradingSignals closes rsiValues vwapValues atrValues ms
             dv).sellSignals.getD i false = true ↔
          atLeastTwo (∃ r, rsiValues.getD i none = some r ∧ 70 < r)
            (dv.bearishDivergence.getD i false = true)
            ((ms.highs.getD i none).isSome = true)
            (∃ v, vwapValues.getD i none = some v ∧ closes.getD i 0 < v))) := by
  intro closes rsiValues vwapValues atrValues ms dv hne h1 h2 h3 h4 h5 h6
  have hlen : ¬closes.length = 0 := by simpa using hne
  unfold generateTradingSignals
  rw [if_neg hlen]
  dsimp only
  refine ⟨⟨by simp, by simp⟩, fun i hi => ?_, fun i h30 hilen => ?_⟩
  · have hn30 : ¬(30 ≤ i) := by omega
    constructor
    · rcases Nat.lt_or_ge i closes.length with hin | hin
      · rw [getD_map_range _ _ hin]
        simp [hn30]
      · rw [getD_map_range_ge _ _ hin]
    · rcases Nat.lt_or_ge i closes.length with hin | hin
      · rw [getD_map_range _ _ hin]
        simp [hn30]
      · rw [getD_map_range_ge _ _ hin]
  · constructor
    · rw [getD_map_range _ _ hilen]
      have hsplit :
          (decide (30 ≤ i) &&
            decide (2 ≤ countTrue (buyConditions closes rsiValues vwapValues ms dv i))) = true
          ↔ 2 ≤ countTrue (buyConditions closes rsiValues vwapValues ms dv i) := by
        simp [h30]
      rw [hsplit]
      unfold buyConditions
      rw [countTrue_four, presentLt_eq_true_iff, presentLt_eq_true_iff]
    · rw [getD_map_range _ _ hilen]
      have hsplit :
          (decide (30 ≤ i) &&
            decide (2 ≤ countTrue (sellConditions closes rsiValues vwapValues ms dv i))) = true
          ↔ 2 ≤ countTrue (sellConditions closes rsiValues vwapValues ms dv i) := by
        simp [h30]
      rw [hsplit]
      unfold sellConditions
      rw [countTrue_four, presentGt_eq_true_iff, presentGt_eq_true_iff]

/-- C1 witness: concrete instantiation on 31 bars of all-absent indicator
inputs; the buy output has length 31 and bar 5 (before the warm-up floor)
carries no signal. -/
theorem C1_witness :
    (generateTradingSignals (List.replicate 31 (1 : ℚ)) (List.replicate 31 none)
        (List.replicate 31 none) [] ⟨List.replicate 31 none, List.replicate 31 none⟩
        ⟨List.replicate 31 false, List.replicate 31 false⟩).buySignals.length = 31 ∧
    (generateTradingSignals (List.replicate 31 (1 : ℚ)) (List.replicate 31 none)
        (List.replicate 31 none) [] ⟨List.replicate 31 none, List.replicate 31 none⟩
        ⟨List.replicate 31 false, List.replicate 31 false⟩).buySignals.getD 5 false = false := by
  have h := C1_signal_vote_rule (List.replicate 31 1) (List.replicate 31 none)
    (List.replicate 31 none) [] ⟨List.replicate 31 none, List.replicate 31 none⟩
    ⟨List.replicate 31 false, List.replicate 31 false⟩
    (by simp) (by simp) (by simp) (by simp) (by simp) (by simp) (by simp)
  exact ⟨by simpa using h.1.1, (h.2.1 5 (by norm_num)).1⟩


/-! ## C4: swing-high / swing-low exclusivity -/

/-- C4 counterexample: with window 1 and the distinct-valued inputs
`highPrices = [1, 5, 0]`, `lowPrices = [4, 0, 3]` (no duplicate values at
all), index 1 is simultaneously a swing high (5 exceeds both neighbouring
highs) and a swing low (0 is below both neighbouring lows). -/
theorem C4_counterexample :
    ((identifyMarketStructure [1, 5, 0] [4, 0, 3] 1).highs.getD 1 none).isSome = true ∧
    ((identifyMarketStructure [1, 5, 0] [4, 0, 3] 1).lows.getD 1 none).isSome = true := by
  decide

/-- C4 (amended): when the detector is applied to a single series
(`highPrices = lowPrices`), no index is ever marked both a swing high and a
swing low for any window `W ≥ 1` (being both would force
`x[i-1] < x[i] < x[i-1]`). -/
theorem C4_swing_exclusive_same_series :
    ∀ (x : List ℚ) (w i : ℕ), 1 ≤ w →
      ¬(((identifyMarketStructure x x w).highs.getD i none).isSome = true ∧
        ((identifyMarketStructure x x w).lows.getD i none).isSome = true) := by
  intro x w i hw h
  obtain ⟨hh, hl⟩ := h
  unfold identifyMarketStructure at hh hl
  by_cases hg : x.length < w * 2 + 1 ∨ x.length < w * 2 + 1
  · rw [if_pos hg] at hh
    dsimp only at hh
    rw [getD_replicate_ite] at hh
    split at hh <;> simp at hh
  · rw [if_neg hg] at hh hl
    dsimp only at hh hl
    rcases Nat.lt_or_ge i x.length with hin | hin
    · rw [getD_map_range _ _ hin] at hh hl
      split at hh
      · split at hl
        · rename_i ch cl
          obtain ⟨-, -, hhall⟩ := ch
          obtain ⟨-, -, hlall⟩ := cl
          have h1 : (1 : ℕ) ∈ List.range' 1 w := by
            rw [List.mem_range']
            exact ⟨0, by omega, by omega⟩
          have ha := (hhall 1 h1).1
          have hb := (hlall 1 h1).1
          linarith
        · simp at hl
      · simp at hh
    · rw [getD_map_range_ge _ _ hin] at hh
      simp at hh

/-- C4 witness: on the strictly increasing single series `[1, 2, 3]` with
window 1, index 1 is not marked both ways. -/
theorem C4_witness :
    ¬(((identifyMarketStructure [1, 2, 3] [1, 2, 3] 1).highs.getD 1 none).isSome = true ∧
      ((identifyMarketStructure [1, 2, 3] [1, 2, 3] 1).lows.getD 1 none).isSome = true) :=
  C4_swing_exclusive_same_series [1, 2, 3] 1 1 (by norm_num)


/-! ## C2: backtest scenario, trade-profit law, exit-bar equity law -/

theorem backtestStep_profit_preserved (lastIdx : ℕ) (closes : List ℚ) (buy sell : List Bool)
    (s : BTState) (i : ℕ)
    (hs : ∀ t ∈ s.trades, t.profit = (t.exit_ - t.entry) / t.entry * 100) :
    ∀ t ∈ (backtestStep lastIdx closes buy sell s i).trades,
      t.profit = (t.exit_ - t.entry) / t.entry * 100 := by
  intro t ht
  unfold backtestStep at ht
  split at ht
  · exact hs t ht
  · split at ht
    · dsimp only at ht
      rcases List.mem_append.1 ht with h1 | h1
      · exact hs t h1
      · have heq :
            t = ⟨s.entryPrice, closes.getD i 0,
                 (closes.getD i 0 - s.entryPrice) / s.entryPrice * 100⟩ := by
          simpa using h1
        rw [heq]
    · exact hs t ht

theorem foldl_trades_profit (lastIdx : ℕ) (closes : List ℚ) (buy sell : List Bool) :
    ∀ (l : List ℕ) (s : BTState),
      (∀ t ∈ s.trades, t.profit = (t.exit_ - t.entry) / t.entry * 100) →
      ∀ t ∈ (l.foldl (backtestStep lastIdx closes buy sell) s).trades,
        t.profit = (t.exit_ - t.entry) / t.entry * 100 := by
  intro l
  induction l with
  | nil => intro s hs; exact hs
  | cons j rest ih =>
    intro s hs
    exact ih _ (backtestStep_profit_preserved _ _ _ _ _ _ hs)

theorem backtestStep_equity_mul (lastIdx : ℕ) (closes : List ℚ) (buy sell : List Bool)
    (s : BTState) (i : ℕ) (t : Trade)
    (h : (backtestStep lastIdx closes buy sell s i).trades = s.trades ++ [t]) :
    (backtestStep lastIdx closes buy sell s i).cur = s.cur * (1 + t.profit / 100) := by
  unfold backtestStep at h ⊢
  split at h
  · dsimp only at h
    exact absurd h (by simp)
  · split at h
    · rename_i hcond1 hcond2
      dsimp only at h ⊢
      rw [if_neg hcond1, if_pos hcond2]
      have ht :
          t = ⟨s.entryPrice, closes.getD i 0,
               (closes.getD i 0 - s.entryPrice) / s.entryPrice * 100⟩ := by
        have h2 := List.append_cancel_left h
        simpa using h2.symm
      rw [ht]
      dsimp only
      ring
    · dsimp only at h
      exact absurd h (by simp)

/-- C2: the scenario backtest on closes `[100,110,90,95,130]` with a buy at
index 0 and a sell at index 2 yields exactly one trade (entry 100, exit 90,
profit −10 percent) and the equity curve `[10000,10000,10000,9000,9000,9000]`
ending at 9000; in general every recorded trade satisfies
`profit = (exit − entry)/entry · 100`, and whenever a loop step records a
trade the running equity is multiplied by `1 + profit/100`. -/
theorem C2_backtest_scenario_and_profit_law :
    (backtest [100, 110, 90, 95, 130] [true, false, false, false, false]
        [false, false, true, false, false] 10000 =
      ([10000, 10000, 10000, 9000, 9000, 9000],
       [{ entry := 100, exit_ := 90, profit := -10 }])) ∧
    (∀ (closes : List ℚ) (buy sell : List Bool) (cap : ℚ),
      ∀ t ∈ (backtest closes buy sell cap).2,
        t.profit = (t.exit_ - t.entry) / t.entry * 100) ∧
    (∀ (lastIdx : ℕ) (closes : List ℚ) (buy sell : List Bool) (s : BTState) (i : ℕ) (t : Trade),
      (backtestStep lastIdx closes buy sell s i).trades = s.trades ++ [t] →
      (backtestStep lastIdx closes buy sell s i).cur = s.cur * (1 + t.profit / 100)) := by
  refine ⟨by decide, ?_, backtestStep_equity_mul⟩
  intro closes buy sell cap t ht
  unfold backtest at ht
  split at ht
  · simp at ht
  · dsimp only at ht
    exact foldl_trades_profit _ _ _ _ _ _ (by simp) t ht

/-- C2 witness: the scenario's single trade satisfies the profit law
(`−10 = (90−100)/100·100`), and the exit step at bar 2 multiplies the
running equity by `1 − 10/100`. -/
theorem C2_witness :
    ((-10 : ℚ) = (90 - 100) / 100 * 100) ∧
    ((backtestStep 4 [100, 110, 90, 95, 130] [true, false, false, false, false]
        [false, false, true, false, false]
        { equity := [10000, 10000, 10000], cur := 10000, inPosition := true,
          entryPrice := 100, trades := [] } 2).cur =
      10000 * (1 + (-10 : ℚ) / 100)) := by
  constructor
  · have ht : ({ entry := 100, exit_ := 90, profit := -10 } : Trade) ∈
        (backtest [100, 110, 90, 95, 130] [true, false, false, false, false]
          [false, false, true, false, false] 10000).2 := by decide
    simpa using C2_backtest_scenario_and_profit_law.2.1 _ _ _ _ _ ht
  · exact C2_backtest_scenario_and_profit_law.2.2 4 [100, 110, 90, 95, 130]
      [true, false, false, false, false] [false, false, true, false, false]
      { equity := [10000, 10000, 10000], cur := 10000, inPosition := true,
        entryPrice := 100, trades := [] } 2
      { entry := 100, exit_ := 90, profit := -10 } (by decide)


/-! ## C10: a position opened on the final bar is never closed -/

theorem flat_fold (lastIdx : ℕ) (closes : List ℚ) (buy sell : List Bool) (cap e0 : ℚ) :
    ∀ (k : ℕ), (∀ i, i < k → buy.getD i false = false) →
      (List.range k).foldl (backtestStep lastIdx closes buy sell)
        { equity := [cap], cur := cap, inPosition := false, entryPrice := e0, trades := [] } =
      { equity := List.replicate (k + 1) cap, cur := cap, inPosition := false,
        entryPrice := e0, trades := [] } := by
  intro k
  induction k with
  | zero => intro _; rfl
  | succ k ih =>
    intro hb
    rw [List.range_succ, List.foldl_append]
    rw [ih fun i hi => hb i (by omega)]
    rw [List.foldl_cons, List.foldl_nil]
    unfold backtestStep
    dsimp only
    rw [hb k (by omega)]
    simp [List.replicate_succ']

/-- C10: with a buy signal only on the final bar (and signal arrays of the
input's non-zero length), `backtest` opens a position on the final bar but
records no trade: the trade log is empty and the equity curve is
`bars + 1` copies of the initial capital. -/
theorem C10_buy_on_last_bar_records_nothing :
    ∀ (closes : List ℚ) (sell : List Bool) (cap : ℚ),
      closes ≠ [] → sell.length = closes.length →
      backtest closes (List.replicate (closes.length - 1) false ++ [true]) sell cap =
        (List.replicate (closes.length + 1) cap, []) := by
  intro closes sell cap hne hlen
  have hn : 1 ≤ closes.length := by
    cases closes
    · exact absurd rfl hne
    · simp
  have hguard : ¬(closes.length = 0 ∨
      (List.replicate (closes.length - 1) false ++ [true]).length = 0 ∨ sell.length = 0) := by
    push_neg
    refine ⟨by omega, by simp, by omega⟩
  unfold backtest
  rw [if_neg hguard]
  dsimp only
  have hsplit : List.range closes.length =
      List.range (closes.length - 1) ++ [closes.length - 1] := by
    conv_lhs => rw [show closes.length = closes.length - 1 + 1 by omega]
    exact List.range_succ _
  rw [hsplit, List.foldl_append]
  rw [flat_fold _ _ _ _ cap 0 (closes.length - 1) fun i hi => ?_]
  · dsimp only [List.foldl]
    unfold backtestStep
    have hbl : (List.replicate (closes.length - 1) false ++ [true]).getD
        (closes.length - 1) false = true := by
      rw [List.getD_append_right _ _ _ _ (by simp)]
      simp
    rw [hbl]
    dsimp only
    have h2 : closes.length - 1 + 1 = closes.length := by omega
    rw [h2]
    simp [List.replicate_succ']
  · rw [List.getD_append _ _ _ _ (by simp; omega), getD_replicate_ite]
    split <;> rfl

/-- C10 witness: two bars with a buy only on the last one produce an empty
trade log and a constant equity curve of length 3. -/
theorem C10_witness :
    backtest [(5 : ℚ), 7] (List.replicate 1 false ++ [true]) [false, false] 10000 =
      (List.replicate 3 (10000 : ℚ), []) :=
  C10_buy_on_last_bar_records_nothing [5, 7] [false, false] 10000 (by simp) (by simp)


/-! ## C5: monotonically rising series and the sell conditions -/

/-- A strictly rising 40-bar close series: unit gains for the first 14
deltas, then gains of 1/1000.  The Wilder-smoothed average gain decays, so
the RSI stays above 70 while falling — price up, RSI down, RSI > 70 is
exactly the bearish-divergence condition, which together with the
RSI-overbought condition reaches the 2-of-4 sell threshold. -/
def c40ex : List ℚ :=
  [1, 2, 3, 4, 5, 6, 7, 8, 9, 10, 11, 12, 13, 14, 15,
   15 + 1/1000, 15 + 2/1000, 15 + 3/1000, 15 + 4/1000, 15 + 5/1000,
   15 + 6/1000, 15 + 7/1000, 15 + 8/1000, 15 + 9/1000, 15 + 10/1000,
   15 + 11/1000, 15 + 12/1000, 15 + 13/1000, 15 + 14/1000, 15 + 15/1000,
   15 + 16/1000, 15 + 17/1000, 15 + 18/1000, 15 + 19/1000, 15 + 20/1000,
   15 + 21/1000, 15 + 22/1000, 15 + 23/1000, 15 + 24/1000, 15 + 25/1000]

set_option maxRecDepth 400000 in
/-- C5 counterexample: `c40ex` has length 40, is strictly rising
bar-to-bar, the volumes are all 1 (positive), and yet the generated sell
signal at bar 30 is `true` — refuting "no sell signal at any bar ≥ 30"
for rising series. -/
theorem C5_counterexample :
    c40ex.length = 40 ∧
    ((c40ex.zip c40ex.tail).all fun p => decide (p.1 < p.2)) = true ∧
    ((List.replicate 40 (1 : ℚ)).all fun v => decide (0 < v)) = true ∧
    (generateTradingSignals c40ex (calculateRSI c40ex 14)
      (calculateVWAP c40ex c40ex c40ex (List.replicate 40 1) 14) []
      (identifyMarketStructure c40ex c40ex 10)
      (detectRSIDivergence c40ex (calculateRSI c40ex 14) 14)).sellSignals.getD 30 false =
      true := by
  refine ⟨by decide, by decide, by decide, by decide⟩

theorem getD_mono_of_adjacent {c : List ℚ}
    (h : ∀ i, i < c.length - 1 → c.getD i 0 ≤ c.getD (i + 1) 0) :
    ∀ a b, a ≤ b → b < c.length → c.getD a 0 ≤ c.getD b 0 := by
  intro a b hab hb
  induction b with
  | zero =>
    have : a = 0 := by omega
    rw [this]
  | succ m ih =>
    rcases Nat.lt_or_ge a (m + 1) with hlt | hge
    · have step := h m (by omega)
      have := ih (by omega) (by omega)
      linarith
    · have : a = m + 1 := by omega
      rw [this]


theorem structure_highs_none_past (x : List ℚ) (hx : x.length = 40) (i : ℕ) (hi : 30 ≤ i) :
    (identifyMarketStructure x x 10).highs.getD i none = none := by
  unfold identifyMarketStructure
  rw [if_neg (by omega : ¬(x.length < 10 * 2 + 1 ∨ x.length < 10 * 2 + 1))]
  dsimp only
  rcases Nat.lt_or_ge i x.length with hin | hin
  · rw [getD_map_range _ _ hin]
    rw [if_neg]
    rintro ⟨-, h2, -⟩
    omega
  · exact getD_map_range_ge _ _ hin

theorem vwap_le_close_of_monotone (closes volumes : List ℚ)
    (h40 : closes.length = 40) (hv40 : volumes.length = 40)
    (hmono : ∀ j, j < closes.length - 1 → closes.getD j 0 ≤ closes.getD (j + 1) 0)
    (hvol : ∀ v ∈ volumes, 0 < v) (i : ℕ) (hi : 30 ≤ i) :
    ∀ v, (calculateVWAP closes closes closes volumes 14).getD i none = some v →
      v ≤ closes.getD i 0 := by
  intro v hv
  unfold calculateVWAP at hv
  rw [if_neg (by push_neg; exact ⟨by omega, by omega, by omega, by omega⟩)] at hv
  simp only [List.length_map, List.length_range] at hv
  rcases Nat.lt_or_ge i closes.length with hin | hin
  · rw [getD_map_range _ _ hin, if_neg (by omega)] at hv
    split at hv
    · rename_i hsv
      have hveq : _ = v := Option.some_injective _ hv
      rw [← hveq, div_le_iff hsv]
      refine le_trans (List.sum_le_sum (g := fun j => closes.getD i 0 * volumes.getD (i - j) 0)
        fun j hj => ?_) (le_of_eq (List.sum_map_mul_left _ _ _))
      have hj14 : j < 14 := List.mem_range.1 hj
      rw [getD_map_range _ _ (show i - j < closes.length by omega)]
      have htp : (closes.getD (i - j) 0 + closes.getD (i - j) 0 + closes.getD (i - j) 0) / 3 =
          closes.getD (i - j) 0 := by ring
      rw [htp]
      apply mul_le_mul_of_nonneg_right
      · exact getD_mono_of_adjacent hmono (i - j) i (by omega) hin
      · have hjlt : i - j < volumes.length := by omega
        rw [List.getD_eq_getElem _ _ hjlt]
        exact (hvol _ (List.getElem_mem hjlt)).le
    · exact absurd hv (by simp)
  · rw [getD_map_range_ge _ _ hin] at hv
    exact absurd hv (by simp)

theorem two_of_four_tail_false (a b : Bool) :
    2 ≤ countTrue [a, b, false, false] → a = true ∧ b = true := by
  cases a <;> cases b <;> simp [countTrue, List.filter]

/-- C5 (amended): on a monotonically rising 40-bar close series with
positive volumes and the derived auxiliary inputs, at every bar `i ≥ 30`
the structural-swing-high mark is absent and the close is not below the
VWAP, so a sell signal can fire only when both the RSI-overbought condition
(`RSI > 70`) and the bearish-divergence condition hold at `i` — "no sell
signal ever fires at `i ≥ 30`" is refuted by `C5_counterexample`. -/
theorem C5_rising_sell_needs_rsi_and_divergence :
    ∀ (closes volumes : List ℚ) (atrValues : List (Option ℚ)) (i : ℕ),
      closes.length = 40 → volumes.length = 40 →
      (∀ j, j < closes.length - 1 → closes.getD j 0 ≤ closes.getD (j + 1) 0) →
      (∀ v ∈ volumes, 0 < v) →
      30 ≤ i →
      ((identifyMarketStructure closes closes 10).highs.getD i none = none) ∧
      ((generateTradingSignals closes (calculateRSI closes 14)
          (calculateVWAP closes closes closes volumes 14) atrValues
          (identifyMarketStructure closes closes 10)
          (detectRSIDivergence closes (calculateRSI closes 14) 14)).sellSignals.getD i false
            = true →
        presentGt ((calculateRSI closes 14).getD i none) 70 = true ∧
        (detectRSIDivergence closes
          (calculateRSI closes 14) 14).bearishDivergence.getD i false = true) := by
  intro closes volumes atrValues i h40 hv40 hmono hvol hi
  refine ⟨structure_highs_none_past closes h40 i hi, fun hsell => ?_⟩
  unfold generateTradingSignals at hsell
  rw [if_neg (by omega)] at hsell
  dsimp only at hsell
  rcases Nat.lt_or_ge i closes.length with hin | hin
  · rw [getD_map_range _ _ hin] at hsell
    rw [Bool.and_eq_true, decide_eq_true_iff, decide_eq_true_iff] at hsell
    have h2of := hsell.2
    unfold sellConditions at h2of
    have hc3 : ((identifyMarketStructure closes closes 10).highs.getD i none).isSome = false := by
      rw [structure_highs_none_past closes h40 i hi]
      rfl
    have hc4 : presentGt ((calculateVWAP closes closes closes volumes 14).getD i none)
        (closes.getD i 0) = false := by
      cases hvw : (calculateVWAP closes closes closes volumes 14).getD i none with
      | none => rfl
      | some v =>
        have hle := vwap_le_close_of_monotone closes volumes h40 hv40 hmono hvol i hi v hvw
        simp only [presentGt, Option.isSome_some, Option.getD_some, Bool.true_and,
          decide_eq_false_iff_not, not_lt]
        exact hle
    rw [hc3, hc4] at h2of
    exact two_of_four_tail_false _ _ h2of
  · rw [getD_map_range_ge _ _ hin] at hsell
    exact absurd hsell (by simp)

set_option maxRecDepth 400000 in
/-- C5 witness: on the concrete rising series `c40ex` with unit volumes the
sell signal at bar 30 does fire, and the theorem then forces both the
RSI-overbought and the bearish-divergence conditions at bar 30. -/
theorem C5_witness :
    presentGt ((calculateRSI c40ex 14).getD 30 none) 70 = true ∧
    (detectRSIDivergence c40ex (calculateRSI c40ex 14) 14).bearishDivergence.getD 30 false
      = true := by
  have h := C5_rising_sell_needs_rsi_and_divergence c40ex (List.replicate 40 1) [] 30
    (by decide) (by decide) (by decide) (by decide) (by norm_num)
  exact h.2 (by decide)


/-! ## C9: resampler degrade-to-input fallback -/

/-- C9: for every non-empty input, every calendar bucketing key (daily,
weekly and monthly keys are instances) and every hour width, if the
aggregated series has fewer than 2 bars, the resampling function returns
the original input series unchanged rather than the aggregate or an
error. -/
theorem C9_resample_fallback :
    (∀ (K : Type) [inst : DecidableEq K] (key : ℤ → K) (data : StockData),
      data.timestamp ≠ [] →
      (aggregateByKeys data (data.timestamp.map key)).timestamp.length < 2 →
      aggregateToBuckets key data = data) ∧
    (∀ (data : StockData) (hours : ℕ),
      data.timestamp ≠ [] →
      (hourlyAggregate data hours).timestamp.length < 2 →
      aggregateToHourly data hours = data) := by
  constructor
  · intro K inst key data hne hlen
    unfold aggregateToBuckets
    rw [if_neg hne, if_pos hlen]
  · intro data hours hne hlen
    unfold aggregateToHourly
    rw [if_neg hne, if_pos hlen]

/-- C9 witness: a single-bar series aggregates (under the identity day-key,
and into 1-hour slots) to a single bar, which is fewer than 2, so both
resamplers return the input unchanged. -/
theorem C9_witness :
    (aggregateToBuckets (fun t => t)
        { timestamp := [0], open_ := [1], high := [1], low := [1],
          close := [1], volume := [1] } =
      { timestamp := [0], open_ := [1], high := [1], low := [1],
        close := [1], volume := [1] }) ∧
    (aggregateToHourly
        { timestamp := [0], open_ := [1], high := [1], low := [1],
          close := [1], volume := [1] } 1 =
      { timestamp := [0], open_ := [1], high := [1], low := [1],
        close := [1], volume := [1] }) := by
  constructor
  · exact C9_resample_fallback.1 ℤ (fun t => t) _ (by simp) (by decide)
  · exact C9_resample_fallback.2 _ 1 (by simp) (by decide)


/-- C6 witness: for period 5 on the 15-point series, both outputs have
length 15 and index 2 of the SMA is absent. -/
theorem C6_witness :
    (calculateMA [1, 2, 3, 4, 5, 6, 7, 8, 9, 10, 11, 12, 13, 14, 15] 5).length = 15 ∧
    (calculateEMA [1, 2, 3, 4, 5, 6, 7, 8, 9, 10, 11, 12, 13, 14, 15] 5).length = 15 ∧
    (calculateMA [1, 2, 3, 4, 5, 6, 7, 8, 9, 10, 11, 12, 13, 14, 15] 5).getD 2 none = none := by
  have h := C6_sma_ema_prefix_law.1 5
    [1, 2, 3, 4, 5, 6, 7, 8, 9, 10, 11, 12, 13, 14, 15] (by norm_num)
  exact ⟨by simpa using h.1, by simpa using h.2.1, (h.2.2 2 (by norm_num)).1⟩

end RatEval
